import Mathlib

/-!
Shallow embedding of `checker.py` (TBS MUNDO PIXAR ticket-availability
notifier).  The script loads a JSON state file, fetches a calendar feed,
filters it to the available slots, decides whether to send a Gmail
notification, and persists the new state.  Pure data flow is modelled
directly; the external effects (HTTP fetch, SMTP send) enter the model as
outcome parameters (`FetchOutcome`, `sendFails`), and the observable
behaviour of a run (exit code, the `send_email` call made, the state
written to `state.json`) is the returned `RunResult`.

Python string operations are modelled on the character list `String.data`,
which matches Python's per-character semantics (slicing, lexicographic
comparison by code point); bridge lemmas relate the executable comparisons
to Mathlib's linear order on `String`.
-/

namespace Checker

/-- Python's lexicographic comparison of two strings, on their character
lists: the first differing position decides by code point, a strict prefix
is smaller. -/
def charsLt : List Char → List Char → Bool
  | _, [] => false
  | [], _ :: _ => true
  | a :: as, b :: bs =>
    if a < b then true
    else if b < a then false
    else charsLt as bs

/-- Python `a < b` on strings. -/
def strLt (a b : String) : Bool := charsLt a.data b.data

/-- Python `a <= b` on strings. -/
def strLe (a b : String) : Bool := !(strLt b a)

/-- Characters removed by Python's `str.strip()` (ASCII whitespace). -/
def pySpace (c : Char) : Bool :=
  c = ' ' || c = '\t' || c = '\n' || c = '\x0d' || c = '\x0b' || c = '\x0c'

/-- Python `s.strip()`: drop leading and trailing whitespace. -/
def pyStrip (s : String) : String :=
  ⟨((s.data.dropWhile pySpace).reverse.dropWhile pySpace).reverse⟩

/-- JSON values as they occur in `state.json`: the script stores a nullable
ISO string under `last_checked` and a list of date-id strings under
`last_available_dates`; other keys of a loaded file may carry anything, which
we keep abstract with the same constructors. -/
inductive JVal where
  | jnull : JVal
  | jstr : String → JVal
  | jlist : List String → JVal
deriving DecidableEq, Repr

/-- A Python `dict` parsed from JSON: association list with unique keys in
insertion order. -/
abbrev Dict := List (String × JVal)

/-- `d.get(k)`: first value stored under key `k`. -/
def dictGet : Dict → String → Option JVal
  | [], _ => none
  | (k', v') :: rest, k => if k' = k then some v' else dictGet rest k

/-- `d[k] = v` as performed by `dict.update`: replace the value at an
existing key in place, otherwise append the new key at the end. -/
def dictSet : Dict → String → JVal → Dict
  | [], k, v => [(k, v)]
  | (k', v') :: rest, k, v =>
    if k' = k then (k, v) :: rest else (k', v') :: dictSet rest k v

/-- Default state returned by `load_state` when `state.json` is missing or
unreadable (`{"last_checked": None, "last_available_dates": []}`). -/
def defaultState : Dict :=
  [("last_checked", JVal.jnull), ("last_available_dates", JVal.jlist [])]

/-- `load_state()`: the result of reading `state.json` is `some d` when the
file exists and parses, `none` when it is missing or raises
`JSONDecodeError`/`OSError`; in the latter case the defaults are returned. -/
def load_state : Option Dict → Dict
  | some d => d
  | none => defaultState

/-- `state.get("last_available_dates", [])`: the stored id list, defaulting
to empty when the key is absent.  (In states written by the script the key,
when present, always holds a JSON list.) -/
def getDates (d : Dict) : List String :=
  match dictGet d "last_available_dates" with
  | some (JVal.jlist l) => l
  | _ => []

/-- One line of the calendar feed after `json.loads`: the fields the script
reads (`JOEN_DATE`, `ZANSEKI` after `int(...)`, `YOYAKU_STDATE`,
`YOYAKU_EDDATE`, `MIN_RYOKIN`). -/
structure RawRecord where
  joen_date : String
  zanseki : Int
  yoyaku_st : String
  yoyaku_ed : String
  min_ryokin : String
deriving DecidableEq, Repr

/-- An entry of the list built by `fetch_available_dates`. -/
structure AvailRecord where
  joen_date : String
  date : String
  zanseki : Int
  min_ryokin : String
deriving DecidableEq, Repr

/-- The availability test of `fetch_available_dates`:
`zanseki > 0 and yoyaku_st <= now_str <= yoyaku_ed` (the Python chained
comparison, both bounds inclusive). -/
def recordAvailable (now_str : String) (r : RawRecord) : Bool :=
  decide (0 < r.zanseki) && (strLe r.yoyaku_st now_str && strLe now_str r.yoyaku_ed)

/-- The dict appended for an available record, with
`date = f"{joen_date[:4]}-{joen_date[4:6]}-{joen_date[6:8]}"`
(character slicing). -/
def toAvail (r : RawRecord) : AvailRecord :=
  { joen_date := r.joen_date
    date := ⟨r.joen_date.data.take 4 ++ '-' :: ((r.joen_date.data.drop 4).take 2)
              ++ '-' :: ((r.joen_date.data.drop 6).take 2)⟩
    zanseki := r.zanseki
    min_ryokin := r.min_ryokin }

/-- `fetch_available_dates` applied to the parsed feed lines: keeps the
records with remaining seats inside the booking window, in feed order. -/
def fetch_available_dates (now_str : String) (records : List RawRecord) : List AvailRecord :=
  (records.filter (recordAvailable now_str)).map toAvail

/-- `{d["joen_date"] for d in available_dates}` read off as the list of ids
(set formation happens in `sortedSet`). -/
def currentIds (avail : List AvailRecord) : List String :=
  avail.map (·.joen_date)

/-- `[d for d in available_dates if d["joen_date"] not in prev_available_dates]`. -/
def newlyAvailable (prev : List String) (avail : List AvailRecord) : List AvailRecord :=
  avail.filter (fun d => decide (d.joen_date ∉ prev))

/-- Insert a string into a strictly sorted list, skipping duplicates. -/
def insertUniq (x : String) : List String → List String
  | [] => [x]
  | y :: ys =>
    if x = y then y :: ys
    else if strLt x y then x :: y :: ys
    else y :: insertUniq x ys

/-- `sorted(set(l))`: the distinct elements of `l` in ascending order. -/
def sortedSet (l : List String) : List String :=
  l.foldr insertUniq []

/-- The `state.update({...})` performed before `save_state`: overwrite
`last_checked` with the current ISO timestamp and `last_available_dates`
with `sorted(current_available_dates)`. -/
def updatedState (state : Dict) (now_iso : String) (ids : List String) : Dict :=
  dictSet (dictSet state "last_checked" (JVal.jstr now_iso))
    "last_available_dates" (JVal.jlist (sortedSet ids))

/-- The subject line chosen by `send_email`: the test-style
"currently nothing available" subject exactly when `is_test` is set and the
payload is empty, the availability announcement otherwise. -/
def emailSubject (is_test : Bool) (available_dates : List AvailRecord) : String :=
  if is_test && available_dates.isEmpty then
    "【チケット空き通知】テスト送信（現在空きなし）"
  else
    "【チケット空き通知】MUNDO PIXAR TOKYO の空きが出ました！"

/-- The environment variables `main` reads (`none` models an absent
variable; `os.environ.get(k, "")` turns absence into `""`). -/
structure Env where
  gmail_user : Option String
  gmail_app_password : Option String
  notify_to : Option String
deriving DecidableEq, Repr

/-- `os.environ.get(k, "").strip()`. -/
def stripped (o : Option String) : String := pyStrip (o.getD "")

/-- `not gmail_user or not gmail_app_password or not notify_to`: a stripped
value is falsy exactly when it is the empty string. -/
def configMissing (e : Env) : Bool :=
  decide (stripped e.gmail_user = "") || decide (stripped e.gmail_app_password = "")
    || decide (stripped e.notify_to = "")

/-- Outcome of the `fetch_available_dates()` call: either the parsed feed
lines, or any raised exception (network error, parse error, timeout). -/
inductive FetchOutcome where
  | ok : List RawRecord → FetchOutcome
  | exn : FetchOutcome
deriving DecidableEq, Repr

/-- One call to `send_email`: the `available_dates` payload and the
`is_test` flag. -/
structure SendCall where
  payload : List AvailRecord
  is_test : Bool
deriving DecidableEq, Repr

/-- Everything a single invocation of `main` consumes: environment,
the readability of `state.json`, the fetch outcome, whether the SMTP send
raises, the `--force-notify` flag, and the two clock reads (the
`YYYYMMDDHHmmss` JST string used for window checks and the ISO timestamp
stored in the state). -/
structure RunInput where
  env : Env
  loadResult : Option Dict
  fetch : FetchOutcome
  sendFails : Bool
  force_notify : Bool
  now_str : String
  now_iso : String
deriving DecidableEq, Repr

/-- The observable result of a run: the process exit code, the
`send_email` call made (if any), and the state written by `save_state`
(`none` when the run ended without writing). -/
structure RunResult where
  exitCode : Nat
  sendAttempt : Option SendCall
  saved : Option Dict
deriving DecidableEq, Repr

/-- `main(force_notify)`: config check, `load_state`, fetch (aborting with
`sys.exit(0)` on exception), diff, notification decision (`sys.exit(1)` when
a send raises), then `state.update` and `save_state`. -/
def runMain (inp : RunInput) : RunResult :=
  if configMissing inp.env then
    { exitCode := 1, sendAttempt := none, saved := none }
  else
    let state := load_state inp.loadResult
    let prev := getDates state
    match inp.fetch with
    | FetchOutcome.exn => { exitCode := 0, sendAttempt := none, saved := none }
    | FetchOutcome.ok records =>
      let avail := fetch_available_dates inp.now_str records
      let newly := newlyAvailable prev avail
      let newState := updatedState state inp.now_iso (currentIds avail)
      if inp.force_notify then
        if inp.sendFails then
          { exitCode := 1, sendAttempt := some ⟨avail, true⟩, saved := none }
        else
          { exitCode := 0, sendAttempt := some ⟨avail, true⟩, saved := some newState }
      else if !newly.isEmpty then
        if inp.sendFails then
          { exitCode := 1, sendAttempt := some ⟨newly, false⟩, saved := none }
        else
          { exitCode := 0, sendAttempt := some ⟨newly, false⟩, saved := some newState }
      else
        { exitCode := 0, sendAttempt := none, saved := some newState }

/-! ### Concrete sample data used to exercise the model. -/

/-- A feed record with seats left whose booking window contains
`sampleNow`. -/
def sampleRecord : RawRecord :=
  ⟨"20240401", 2, "20240101000000", "20241231235959", "5000"⟩

/-- A second available record with a later date id. -/
def sampleRecord2 : RawRecord :=
  ⟨"20240402", 5, "20240101000000", "20241231235959", "6000"⟩

/-- A complete Gmail configuration. -/
def sampleEnv : Env := ⟨some "user", some "pass", some "dest"⟩

/-- A JST timestamp inside the booking window of the sample records. -/
def sampleNow : String := "20240601120000"

/-! ### Bridge lemmas: the executable comparisons agree with Mathlib's
linear order on `String`. -/

theorem charsLt_iff_lex (as : List Char) :
    ∀ bs : List Char, charsLt as bs = true ↔ List.Lex (· < ·) as bs := by
  induction as with
  | nil =>
    intro bs
    cases bs with
    | nil =>
      simp only [charsLt, Bool.false_eq_true, false_iff]
      intro h
      cases h
    | cons b bs =>
      simp only [charsLt, true_iff]
      exact List.Lex.nil
  | cons a as ih =>
    intro bs
    cases bs with
    | nil =>
      simp only [charsLt, Bool.false_eq_true, false_iff]
      intro h
      cases h
    | cons b bs =>
      rcases lt_trichotomy a b with hab | hab | hab
      · simp only [charsLt, if_pos hab, true_iff]
        exact List.Lex.rel hab
      · subst hab
        simp only [charsLt, if_neg (lt_irrefl a), ih bs]
        constructor
        · exact List.Lex.cons
        · intro h
          cases h with
          | cons h2 => exact h2
          | rel h2 => exact absurd h2 (lt_irrefl a)
      · have hab' : ¬a < b := not_lt_of_gt hab
        simp only [charsLt, if_neg hab', if_pos hab, Bool.false_eq_true, false_iff]
        intro h
        cases h with
        | cons h2 => exact absurd hab (lt_irrefl _)
        | rel h2 => exact absurd h2 hab'

theorem strLt_iff (a b : String) : strLt a b = true ↔ a < b := by
  rw [String.lt_iff_toList_lt]
  exact charsLt_iff_lex a.data b.data

theorem strLe_iff (a b : String) : strLe a b = true ↔ a ≤ b := by
  show strLe a b = true ↔ ¬b < a
  rw [← strLt_iff b a]
  simp [strLe]

/-! ### Dictionary lemmas. -/

theorem dictGet_dictSet_self (d : Dict) (k : String) (v : JVal) :
    dictGet (dictSet d k v) k = some v := by
  induction d with
  | nil => simp [dictSet, dictGet]
  | cons p rest ih =>
    obtain ⟨k0, v0⟩ := p
    by_cases h : k0 = k
    · simp [dictSet, h, dictGet]
    · simp [dictSet, h, dictGet, ih]

theorem dictGet_dictSet_of_ne (d : Dict) (k k' : String) (v : JVal) (h : k' ≠ k) :
    dictGet (dictSet d k' v) k = dictGet d k := by
  induction d with
  | nil => simp [dictSet, dictGet, h]
  | cons p rest ih =>
    obtain ⟨k0, v0⟩ := p
    by_cases h0 : k0 = k'
    · subst h0
      simp [dictSet, dictGet, h]
    · simp [dictSet, h0, dictGet, ih]

/-! ### `sorted(set(...))` lemmas. -/

theorem mem_insertUniq (x a : String) (l : List String) :
    x ∈ insertUniq a l ↔ x = a ∨ x ∈ l := by
  induction l with
  | nil => simp [insertUniq]
  | cons y ys ih =>
    rw [insertUniq]
    by_cases h1 : a = y
    · subst h1
      rw [if_pos rfl]
      simp only [List.mem_cons]
      tauto
    · rw [if_neg h1]
      by_cases h2 : strLt a y
      · rw [if_pos h2]
        simp only [List.mem_cons]
      · rw [if_neg h2]
        simp only [List.mem_cons, ih]
        tauto

theorem sorted_insertUniq (a : String) (l : List String) (h : List.Sorted (· < ·) l) :
    List.Sorted (· < ·) (insertUniq a l) := by
  induction l with
  | nil => simp [insertUniq]
  | cons y ys ih =>
    rw [List.sorted_cons] at h
    obtain ⟨hy, hys⟩ := h
    by_cases h1 : a = y
    · subst h1
      simp only [insertUniq, if_pos rfl]
      exact List.sorted_cons.mpr ⟨hy, hys⟩
    · by_cases h2 : strLt a y
      · have hay : a < y := (strLt_iff a y).mp h2
        simp only [insertUniq, if_neg h1, if_pos h2]
        rw [List.sorted_cons]
        refine ⟨?_, List.sorted_cons.mpr ⟨hy, hys⟩⟩
        intro b hb
        rcases List.mem_cons.mp hb with rfl | hb
        · exact hay
        · exact lt_trans hay (hy b hb)
      · have hya : y < a := by
          have h2' : ¬a < y := fun hlt => h2 ((strLt_iff a y).mpr hlt)
          rcases lt_trichotomy a y with hlt | heq | hgt
          · exact absurd hlt h2'
          · exact absurd heq h1
          · exact hgt
        simp only [insertUniq, if_neg h1, if_neg h2]
        rw [List.sorted_cons]
        refine ⟨?_, ih hys⟩
        intro b hb
        rcases (mem_insertUniq b a ys).mp hb with rfl | hb
        · exact hya
        · exact hy b hb

theorem sorted_sortedSet (l : List String) : List.Sorted (· < ·) (sortedSet l) := by
  induction l with
  | nil => simp [sortedSet]
  | cons x xs ih =>
    show List.Sorted (· < ·) (insertUniq x (sortedSet xs))
    exact sorted_insertUniq x _ ih

theorem mem_sortedSet (x : String) (l : List String) : x ∈ sortedSet l ↔ x ∈ l := by
  induction l with
  | nil => simp [sortedSet]
  | cons y ys ih =>
    show x ∈ insertUniq y (sortedSet ys) ↔ _
    rw [mem_insertUniq]
    simp [ih]

theorem nodup_sortedSet (l : List String) : (sortedSet l).Nodup :=
  (sorted_sortedSet l).nodup

/-! ### Run-shape lemmas. -/

theorem getDates_updatedState (s : Dict) (iso : String) (ids : List String) :
    getDates (updatedState s iso ids) = sortedSet ids := by
  unfold getDates updatedState
  rw [dictGet_dictSet_self]

theorem runMain_saved_shape (inp : RunInput) (d : Dict)
    (h : (runMain inp).saved = some d) :
    ∃ records, inp.fetch = FetchOutcome.ok records ∧
      d = updatedState (load_state inp.loadResult) inp.now_iso
            (currentIds (fetch_available_dates inp.now_str records)) := by
  unfold runMain at h
  by_cases hc : configMissing inp.env
  · simp [hc] at h
  · cases hf : inp.fetch with
    | exn => simp [hc, hf] at h
    | ok records =>
      refine ⟨records, rfl, ?_⟩
      simp only [hc, Bool.false_eq_true, if_false, hf] at h
      by_cases hforce : inp.force_notify <;>
        by_cases hsf : inp.sendFails <;>
          by_cases hnew : newlyAvailable (getDates (load_state inp.loadResult))
              (fetch_available_dates inp.now_str records) = [] <;>
            simp_all

/-! ### Claim theorems. -/

/-- C2: when the configuration is complete and the fetch raises, the run
exits with status 0, makes no `send_email` call, and does not write the
state file, so the persisted state is unchanged. -/
theorem fetch_failure_leaves_state_untouched (inp : RunInput)
    (hc : configMissing inp.env = false) (hf : inp.fetch = FetchOutcome.exn) :
    runMain inp = { exitCode := 0, sendAttempt := none, saved := none } := by
  unfold runMain
  simp [hc, hf]

/-- C2 witness: a concrete run whose fetch raises ends with exit 0, no
email, and no state write. -/
theorem fetch_failure_leaves_state_untouched_witness :
    configMissing sampleEnv = false ∧
    runMain ⟨sampleEnv, some [("k", JVal.jstr "v")], FetchOutcome.exn, false, false,
        sampleNow, "2024-06-01T12:00:00+09:00"⟩ =
      { exitCode := 0, sendAttempt := none, saved := none } :=
  ⟨by decide, fetch_failure_leaves_state_untouched _ (by decide) rfl⟩

/-- C6: an entry is produced by `fetch_available_dates` exactly when some
feed record has remaining seats (`ZANSEKI > 0`) and the current JST
timestamp lies inside the inclusive window `[YOYAKU_STDATE, YOYAKU_EDDATE]`,
and the entry is that record's projection; only such records enter the
current-available list. -/
theorem available_iff_seats_and_window (now_str : String) (records : List RawRecord)
    (a : AvailRecord) :
    a ∈ fetch_available_dates now_str records ↔
      ∃ r ∈ records,
        (0 < r.zanseki ∧ r.yoyaku_st ≤ now_str ∧ now_str ≤ r.yoyaku_ed) ∧ a = toAvail r := by
  unfold fetch_available_dates
  simp only [List.mem_map, List.mem_filter]
  constructor
  · rintro ⟨r, ⟨hr, hav⟩, rfl⟩
    refine ⟨r, hr, ?_, rfl⟩
    unfold recordAvailable at hav
    simp only [Bool.and_eq_true, decide_eq_true_eq] at hav
    obtain ⟨h1, h2, h3⟩ := hav
    exact ⟨h1, (strLe_iff _ _).mp h2, (strLe_iff _ _).mp h3⟩
  · rintro ⟨r, hr, ⟨h1, h2, h3⟩, rfl⟩
    refine ⟨r, ⟨hr, ?_⟩, rfl⟩
    unfold recordAvailable
    simp only [Bool.and_eq_true, decide_eq_true_eq]
    exact ⟨h1, (strLe_iff _ _).mpr h2, (strLe_iff _ _).mpr h3⟩

/-- C9: a missing or unreadable state file yields the default state
(`last_checked = null`, empty id list), a loaded state without the
`last_available_dates` key yields the empty previous id set, and a run with
an unreadable state file behaves exactly like a run on the default state. -/
theorem corrupt_state_treated_as_first_run (inp : RunInput) (d : Dict) :
    load_state none = defaultState ∧
    dictGet defaultState "last_checked" = some JVal.jnull ∧
    getDates defaultState = [] ∧
    (dictGet d "last_available_dates" = none → getDates d = []) ∧
    (inp.loadResult = none →
      runMain inp = runMain { inp with loadResult := some defaultState }) := by
  refine ⟨rfl, rfl, rfl, ?_, ?_⟩
  · intro h
    unfold getDates
    rw [h]
  · intro h
    obtain ⟨env, lr, f, sf, fn, ns, ni⟩ := inp
    simp only at h
    subst h
    rfl

/-- C9 witness: a concrete dictionary without the key and a concrete run
with an unreadable state file. -/
theorem corrupt_state_treated_as_first_run_witness :
    getDates [("other", JVal.jstr "x")] = [] ∧
    runMain ⟨sampleEnv, none, FetchOutcome.ok [sampleRecord], false, false, sampleNow, "i"⟩ =
      runMain ⟨sampleEnv, some defaultState, FetchOutcome.ok [sampleRecord], false, false,
        sampleNow, "i"⟩ :=
  ⟨(corrupt_state_treated_as_first_run
      ⟨sampleEnv, none, FetchOutcome.ok [sampleRecord], false, false, sampleNow, "i"⟩
      [("other", JVal.jstr "x")]).2.2.2.1 (by decide),
   (corrupt_state_treated_as_first_run
      ⟨sampleEnv, none, FetchOutcome.ok [sampleRecord], false, false, sampleNow, "i"⟩
      [("other", JVal.jstr "x")]).2.2.2.2 rfl⟩

/-- C10: when a run loads a state dictionary and saves, every key other
than `last_checked` and `last_available_dates` keeps its loaded value,
because `save_state` writes the loaded dictionary updated in place. -/
theorem save_preserves_other_keys (inp : RunInput) (d0 d : Dict) (k : String)
    (hload : inp.loadResult = some d0)
    (hsave : (runMain inp).saved = some d)
    (hk1 : k ≠ "last_checked") (hk2 : k ≠ "last_available_dates") :
    dictGet d k = dictGet d0 k := by
  obtain ⟨records, hf, hd⟩ := runMain_saved_shape inp d hsave
  subst hd
  rw [hload]
  show dictGet (updatedState d0 _ _) k = _
  unfold updatedState
  rw [dictGet_dictSet_of_ne _ _ _ _ (Ne.symm hk2), dictGet_dictSet_of_ne _ _ _ _ (Ne.symm hk1)]

/-- C10 witness: a concrete run loading a state with an extra key saves a
state in which that key still holds its loaded value. -/
theorem save_preserves_other_keys_witness :
    dictGet
      [("extra", JVal.jstr "keep"), ("last_checked", JVal.jstr "i"),
        ("last_available_dates", JVal.jlist ["20240401"])]
      "extra" = dictGet [("extra", JVal.jstr "keep"), ("last_checked", JVal.jnull)] "extra" :=
  save_preserves_other_keys
    ⟨sampleEnv, some [("extra", JVal.jstr "keep"), ("last_checked", JVal.jnull)],
      FetchOutcome.ok [sampleRecord], false, false, sampleNow, "i"⟩
    [("extra", JVal.jstr "keep"), ("last_checked", JVal.jnull)]
    [("extra", JVal.jstr "keep"), ("last_checked", JVal.jstr "i"),
      ("last_available_dates", JVal.jlist ["20240401"])]
    "extra" rfl (by decide) (by decide) (by decide)

/-- C4: in a run without `--force-notify` in which some available slot's id
is not among the previously persisted ids, `send_email` is called with
exactly the newly available slots — an available slot belongs to the
payload iff its id is not in the previous id set, so already-known slots
are excluded. -/
theorem notify_payload_is_newly_available (inp : RunInput) (records : List RawRecord)
    (hc : configMissing inp.env = false)
    (hf : inp.fetch = FetchOutcome.ok records)
    (hforce : inp.force_notify = false)
    (hnew : newlyAvailable (getDates (load_state inp.loadResult))
        (fetch_available_dates inp.now_str records) ≠ []) :
    (runMain inp).sendAttempt =
      some { payload := newlyAvailable (getDates (load_state inp.loadResult))
               (fetch_available_dates inp.now_str records)
             is_test := false } ∧
    ∀ a, a ∈ newlyAvailable (getDates (load_state inp.loadResult))
            (fetch_available_dates inp.now_str records) ↔
          a ∈ fetch_available_dates inp.now_str records ∧
            a.joen_date ∉ getDates (load_state inp.loadResult) := by
  constructor
  · unfold runMain
    by_cases hsf : inp.sendFails <;> simp [hc, hf, hforce, hsf, hnew]
  · intro a
    unfold newlyAvailable
    simp [List.mem_filter]

/-- C4 witness: with one previously known id and two available slots, the
payload is exactly the one new slot. -/
theorem notify_payload_is_newly_available_witness :
    (runMain ⟨sampleEnv, some [("last_available_dates", JVal.jlist ["20240401"])],
        FetchOutcome.ok [sampleRecord, sampleRecord2], false, false, sampleNow, "i"⟩).sendAttempt =
      some { payload := newlyAvailable
               (getDates (load_state (some [("last_available_dates", JVal.jlist ["20240401"])])))
               (fetch_available_dates sampleNow [sampleRecord, sampleRecord2])
             is_test := false } ∧
    (toAvail sampleRecord2 ∈ newlyAvailable
        (getDates (load_state (some [("last_available_dates", JVal.jlist ["20240401"])])))
        (fetch_available_dates sampleNow [sampleRecord, sampleRecord2]) ↔
      toAvail sampleRecord2 ∈ fetch_available_dates sampleNow [sampleRecord, sampleRecord2] ∧
        (toAvail sampleRecord2).joen_date ∉
          getDates (load_state (some [("last_available_dates", JVal.jlist ["20240401"])]))) :=
  ⟨(notify_payload_is_newly_available
      ⟨sampleEnv, some [("last_available_dates", JVal.jlist ["20240401"])],
        FetchOutcome.ok [sampleRecord, sampleRecord2], false, false, sampleNow, "i"⟩
      [sampleRecord, sampleRecord2] (by decide) rfl rfl (by decide)).1,
   (notify_payload_is_newly_available
      ⟨sampleEnv, some [("last_available_dates", JVal.jlist ["20240401"])],
        FetchOutcome.ok [sampleRecord, sampleRecord2], false, false, sampleNow, "i"⟩
      [sampleRecord, sampleRecord2] (by decide) rfl rfl (by decide)).2 (toAvail sampleRecord2)⟩

/-- C5: with `--force-notify` and a successful fetch, `send_email` is always
called, its payload is the full current-available list with the test flag
set, and with an empty list the chosen message is the fixed test-style
"currently nothing available" one. -/
theorem force_notify_sends_full_current_list (inp : RunInput) (records : List RawRecord)
    (hc : configMissing inp.env = false)
    (hf : inp.fetch = FetchOutcome.ok records)
    (hforce : inp.force_notify = true) :
    (runMain inp).sendAttempt =
      some { payload := fetch_available_dates inp.now_str records, is_test := true } ∧
    (fetch_available_dates inp.now_str records = [] →
      emailSubject true (fetch_available_dates inp.now_str records) =
        "【チケット空き通知】テスト送信（現在空きなし）") := by
  constructor
  · unfold runMain
    by_cases hsf : inp.sendFails <;> simp [hc, hf, hforce, hsf]
  · intro h
    rw [h]
    rfl

/-- C5 witness: forced run with no newly available slot (previous ids cover
the current ones) still sends, with the full current list; and a forced run
with an empty feed sends the test-style message. -/
theorem force_notify_sends_full_current_list_witness :
    (runMain ⟨sampleEnv, some [("last_available_dates", JVal.jlist ["20240401"])],
        FetchOutcome.ok [sampleRecord], false, true, sampleNow, "i"⟩).sendAttempt =
      some { payload := fetch_available_dates sampleNow [sampleRecord], is_test := true } ∧
    ((runMain ⟨sampleEnv, none, FetchOutcome.ok [], false, true, sampleNow, "i"⟩).sendAttempt =
      some { payload := fetch_available_dates sampleNow [], is_test := true } ∧
    (fetch_available_dates sampleNow [] = [] →
      emailSubject true (fetch_available_dates sampleNow []) =
        "【チケット空き通知】テスト送信（現在空きなし）")) :=
  ⟨(force_notify_sends_full_current_list
      ⟨sampleEnv, some [("last_available_dates", JVal.jlist ["20240401"])],
        FetchOutcome.ok [sampleRecord], false, true, sampleNow, "i"⟩
      [sampleRecord] (by decide) rfl rfl).1,
   force_notify_sends_full_current_list
      ⟨sampleEnv, none, FetchOutcome.ok [], false, true, sampleNow, "i"⟩
      [] (by decide) rfl rfl⟩

/-- C7: whenever a run saves state, the value stored under
`last_available_dates` is a list holding exactly the ids of the currently
available records, without duplicates and in ascending order. -/
theorem saved_ids_canonical (inp : RunInput) (records : List RawRecord) (d : Dict)
    (hf : inp.fetch = FetchOutcome.ok records)
    (hsave : (runMain inp).saved = some d) :
    dictGet d "last_available_dates" = some (JVal.jlist (getDates d)) ∧
    (∀ x, x ∈ getDates d ↔ x ∈ currentIds (fetch_available_dates inp.now_str records)) ∧
    (getDates d).Nodup ∧ List.Sorted (· < ·) (getDates d) := by
  obtain ⟨records', hf', hd⟩ := runMain_saved_shape inp d hsave
  rw [hf] at hf'
  injection hf' with hrec
  subst hrec
  subst hd
  rw [getDates_updatedState]
  refine ⟨?_, ?_, nodup_sortedSet _, sorted_sortedSet _⟩
  · unfold updatedState
    exact dictGet_dictSet_self _ _ _
  · intro x
    exact mem_sortedSet _ _

/-- C7 witness: a feed listing the two sample dates out of order and with a
duplicate saves the two ids sorted and duplicate-free. -/
theorem saved_ids_canonical_witness :
    (getDates [("last_checked", JVal.jstr "i"),
        ("last_available_dates", JVal.jlist ["20240401", "20240402"])]).Nodup ∧
    List.Sorted (· < ·) (getDates [("last_checked", JVal.jstr "i"),
        ("last_available_dates", JVal.jlist ["20240401", "20240402"])]) ∧
    ("20240402" ∈ getDates [("last_checked", JVal.jstr "i"),
        ("last_available_dates", JVal.jlist ["20240401", "20240402"])] ↔
      "20240402" ∈ currentIds
        (fetch_available_dates sampleNow [sampleRecord2, sampleRecord, sampleRecord2])) :=
  ⟨(saved_ids_canonical
      ⟨sampleEnv, none, FetchOutcome.ok [sampleRecord2, sampleRecord, sampleRecord2],
        false, false, sampleNow, "i"⟩
      [sampleRecord2, sampleRecord, sampleRecord2]
      [("last_checked", JVal.jstr "i"),
        ("last_available_dates", JVal.jlist ["20240401", "20240402"])]
      rfl (by decide)).2.2.1,
   (saved_ids_canonical
      ⟨sampleEnv, none, FetchOutcome.ok [sampleRecord2, sampleRecord, sampleRecord2],
        false, false, sampleNow, "i"⟩
      [sampleRecord2, sampleRecord, sampleRecord2]
      [("last_checked", JVal.jstr "i"),
        ("last_available_dates", JVal.jlist ["20240401", "20240402"])]
      rfl (by decide)).2.2.2,
   (saved_ids_canonical
      ⟨sampleEnv, none, FetchOutcome.ok [sampleRecord2, sampleRecord, sampleRecord2],
        false, false, sampleNow, "i"⟩
      [sampleRecord2, sampleRecord, sampleRecord2]
      [("last_checked", JVal.jstr "i"),
        ("last_available_dates", JVal.jlist ["20240401", "20240402"])]
      rfl (by decide)).2.1 "20240402"⟩

/-- C3: if a first non-forced run persists its state, then a second
non-forced run that loads that saved state and fetches an identical feed
at the same timestamp decides not to notify: no `send_email` call is made. -/
theorem second_identical_run_does_not_notify (inp inp2 : RunInput)
    (records : List RawRecord) (d1 : Dict)
    (_hforce : inp.force_notify = false)
    (h1 : (runMain inp).saved = some d1)
    (hc2 : configMissing inp2.env = false)
    (hl2 : inp2.loadResult = some d1)
    (hf : inp.fetch = FetchOutcome.ok records)
    (hf2 : inp2.fetch = FetchOutcome.ok records)
    (hnow2 : inp2.now_str = inp.now_str)
    (hforce2 : inp2.force_notify = false) :
    (runMain inp2).sendAttempt = none := by
  obtain ⟨records', hf', hd⟩ := runMain_saved_shape inp d1 h1
  rw [hf] at hf'
  injection hf' with hrec
  subst hrec
  subst hd
  have hprev : getDates (load_state inp2.loadResult) =
      sortedSet (currentIds (fetch_available_dates inp.now_str records)) := by
    rw [hl2]
    exact getDates_updatedState _ _ _
  have hnewly : newlyAvailable (getDates (load_state inp2.loadResult))
      (fetch_available_dates inp2.now_str records) = [] := by
    rw [hprev, hnow2]
    unfold newlyAvailable
    rw [List.filter_eq_nil_iff]
    intro a ha
    simp only [decide_eq_true_eq, Decidable.not_not, Bool.not_eq_true]
    rw [mem_sortedSet]
    exact List.mem_map_of_mem _ ha
  unfold runMain
  simp [hc2, hf2, hforce2, hnewly]

/-- C3 witness: the state saved by a first run on the sample feed, reloaded
by a second run on the identical feed, produces no notification. -/
theorem second_identical_run_does_not_notify_witness :
    (runMain ⟨sampleEnv,
        some [("last_checked", JVal.jstr "i1"),
          ("last_available_dates", JVal.jlist ["20240401", "20240402"])],
        FetchOutcome.ok [sampleRecord, sampleRecord2], false, false, sampleNow,
        "i2"⟩).sendAttempt = none :=
  second_identical_run_does_not_notify
    ⟨sampleEnv, none, FetchOutcome.ok [sampleRecord, sampleRecord2], false, false, sampleNow,
      "i1"⟩
    ⟨sampleEnv,
      some [("last_checked", JVal.jstr "i1"),
        ("last_available_dates", JVal.jlist ["20240401", "20240402"])],
      FetchOutcome.ok [sampleRecord, sampleRecord2], false, false, sampleNow, "i2"⟩
    [sampleRecord, sampleRecord2]
    [("last_checked", JVal.jstr "i1"),
      ("last_available_dates", JVal.jlist ["20240401", "20240402"])]
    rfl (by decide) (by decide) rfl rfl rfl rfl rfl

/-- C1 counterexample: a concrete run whose fetch succeeds and whose email
send fails makes a send attempt, exits with code 1, and does NOT write the
state file — refuting "after a failed email send the new state is still
saved". -/
theorem state_not_saved_after_failed_send :
    (runMain ⟨sampleEnv, some defaultState, FetchOutcome.ok [sampleRecord], true, false,
        sampleNow, "i"⟩).sendAttempt.isSome = true ∧
    (runMain ⟨sampleEnv, some defaultState, FetchOutcome.ok [sampleRecord], true, false,
        sampleNow, "i"⟩).saved = none ∧
    (runMain ⟨sampleEnv, some defaultState, FetchOutcome.ok [sampleRecord], true, false,
        sampleNow, "i"⟩).exitCode = 1 := by
  decide

/-- C1 amended: after a successful fetch the new state (timestamp and sorted
current ids) is saved when no send is attempted or the send succeeds; when a
send is attempted and fails, the run exits with code 1 WITHOUT saving the
new state. -/
theorem state_saved_unless_send_fails (inp : RunInput) (records : List RawRecord)
    (hc : configMissing inp.env = false)
    (hf : inp.fetch = FetchOutcome.ok records) :
    ((runMain inp).sendAttempt = none ∨ inp.sendFails = false →
      (runMain inp).saved =
        some (updatedState (load_state inp.loadResult) inp.now_iso
          (currentIds (fetch_available_dates inp.now_str records)))) ∧
    ((runMain inp).sendAttempt ≠ none → inp.sendFails = true →
      (runMain inp).saved = none ∧ (runMain inp).exitCode = 1) := by
  unfold runMain
  by_cases hforce : inp.force_notify <;> by_cases hsf : inp.sendFails <;>
    by_cases hnew : newlyAvailable (getDates (load_state inp.loadResult))
        (fetch_available_dates inp.now_str records) = [] <;>
      simp [hc, hf, hforce, hsf, hnew]

/-- C1-amended witness: with a successful send the new state is saved, and
with no send needed the new state is saved even though the send would
fail. -/
theorem state_saved_unless_send_fails_witness :
    (runMain ⟨sampleEnv, some defaultState, FetchOutcome.ok [sampleRecord], false, false,
        sampleNow, "i"⟩).saved =
      some (updatedState (load_state (some defaultState)) "i"
        (currentIds (fetch_available_dates sampleNow [sampleRecord]))) ∧
    (runMain ⟨sampleEnv, some [("last_available_dates", JVal.jlist ["20240401"])],
        FetchOutcome.ok [sampleRecord], true, false, sampleNow, "i"⟩).saved =
      some (updatedState (load_state (some [("last_available_dates", JVal.jlist ["20240401"])]))
        "i" (currentIds (fetch_available_dates sampleNow [sampleRecord]))) :=
  ⟨(state_saved_unless_send_fails
      ⟨sampleEnv, some defaultState, FetchOutcome.ok [sampleRecord], false, false,
        sampleNow, "i"⟩ [sampleRecord] (by decide) rfl).1 (Or.inr rfl),
   (state_saved_unless_send_fails
      ⟨sampleEnv, some [("last_available_dates", JVal.jlist ["20240401"])],
        FetchOutcome.ok [sampleRecord], true, false, sampleNow, "i"⟩
      [sampleRecord] (by decide) rfl).1 (Or.inl (by decide))⟩

/-- C8 counterexample: the missing-configuration exit code (1) is the same
as the exit code of a failed notification send in a fully configured run,
so it is not distinct from the other exit outcomes. -/
theorem config_exit_code_shared_with_send_failure :
    configMissing (⟨some "", some "pass", some "dest"⟩ : Env) = true ∧
    (runMain ⟨⟨some "", some "pass", some "dest"⟩, none, FetchOutcome.exn, false, false,
        sampleNow, "i"⟩).exitCode = 1 ∧
    configMissing sampleEnv = false ∧
    (runMain ⟨sampleEnv, none, FetchOutcome.ok [sampleRecord], true, false, sampleNow,
        "i"⟩).sendAttempt.isSome = true ∧
    (runMain ⟨sampleEnv, none, FetchOutcome.ok [sampleRecord], true, false, sampleNow,
        "i"⟩).exitCode = 1 := by
  decide

/-- C8 amended: if any required setting is absent or blank, the run exits
fatally with code 1 — nonzero, unlike the successful and fetch-failure
exits, though shared with the send-failure exit — making no send and no
state write, and its result does not depend on the state file or the fetch,
so nothing is fetched and no state is read or written. -/
theorem missing_config_fatal_before_fetch (inp : RunInput)
    (hc : configMissing inp.env = true) :
    (runMain inp).exitCode = 1 ∧ (runMain inp).sendAttempt = none ∧
    (runMain inp).saved = none ∧
    ∀ lr f sf,
      runMain { inp with loadResult := lr, fetch := f, sendFails := sf } = runMain inp := by
  unfold runMain
  simp [hc]

/-- C8-amended witness: a blank `GMAIL_APP_PASSWORD` exits with code 1 and
the result is unchanged when the state file and fetch outcome vary. -/
theorem missing_config_fatal_before_fetch_witness :
    configMissing (⟨some "user", some "  ", some "dest"⟩ : Env) = true ∧
    (runMain ⟨⟨some "user", some "  ", some "dest"⟩, none, FetchOutcome.exn, false, false,
        sampleNow, "i"⟩).exitCode = 1 ∧
    runMain ⟨⟨some "user", some "  ", some "dest"⟩, some [("k", JVal.jnull)],
        FetchOutcome.ok [sampleRecord], true, false, sampleNow, "i"⟩ =
      runMain ⟨⟨some "user", some "  ", some "dest"⟩, none, FetchOutcome.exn, false, false,
        sampleNow, "i"⟩ :=
  ⟨by decide,
   (missing_config_fatal_before_fetch
      ⟨⟨some "user", some "  ", some "dest"⟩, none, FetchOutcome.exn, false, false,
        sampleNow, "i"⟩ (by decide)).1,
   (missing_config_fatal_before_fetch
      ⟨⟨some "user", some "  ", some "dest"⟩, none, FetchOutcome.exn, false, false,
        sampleNow, "i"⟩ (by decide)).2.2.2 (some [("k", JVal.jnull)])
      (FetchOutcome.ok [sampleRecord]) true⟩

end Checker
